import Mathlib

/-!
Verification development for the ai-code-view browser extension
(configuration subsystem: src/utils/config/defaults.ts, the ConfigManager,
the StorageManager, and the shared types).

The TypeScript data model is embedded shallowly: interfaces become
structures, string enums become String fields checked by the same
membership tests the code performs, optional fields become Option, and
functions that throw become functions into an error sum.  Every mutating
manager operation is modelled as a function from the stored configuration
document to the pair of the stored document after the call and the
result of the call (the document is returned unchanged when the code
throws before reaching its save call).
-/

namespace AiCodeView

/-! ## Data model (types.ts) -/

/-- Embeds the ShortcutKey interface: a main key, a list of modifier
names, and an enabled flag. -/
structure ShortcutKey where
  key : String
  modifiers : List String
  enabled : Bool
  deriving DecidableEq

/-- Embeds the ServiceSite interface.  The category union type
(source or ai) is embedded as a String, validated by the same
membership test the code runs.  The order field is a JS number used as
an integer, embedded as Int. -/
structure ServiceSite where
  id : String
  name : String
  description : String
  category : String
  urlTemplate : String
  icon : String
  enabled : Bool
  order : Int
  isBuiltIn : Bool
  shortcuts : Option ShortcutKey
  deriving DecidableEq

/-- Embeds the ExtensionSettings interface. -/
structure ExtensionSettings where
  defaultSiteId : String
  openInNewTab : Bool
  showOnHover : Bool
  enableShortcuts : Bool
  deriving DecidableEq

/-- Embeds the ExtensionConfig interface: the whole persisted document. -/
structure ExtensionConfig where
  sites : List ServiceSite
  settings : ExtensionSettings
  version : String
  deriving DecidableEq

/-- Embeds the CreateSiteInput type: ServiceSite minus id, isBuiltIn
and order. -/
structure CreateSiteInput where
  name : String
  description : String
  category : String
  urlTemplate : String
  icon : String
  enabled : Bool
  shortcuts : Option ShortcutKey
  deriving DecidableEq

/-- Embeds the UpdateSiteInput type, a Partial of ServiceSite minus id
and isBuiltIn: a field that is none is a key absent from the patch
object. -/
structure UpdateSiteInput where
  name : Option String
  description : Option String
  category : Option String
  urlTemplate : Option String
  icon : Option String
  enabled : Option Bool
  order : Option Int
  shortcuts : Option (Option ShortcutKey)
  deriving DecidableEq

/-- Embeds the ShortcutConflict interface. -/
structure ShortcutConflict where
  siteId : String
  siteName : String
  shortcut : ShortcutKey
  deriving DecidableEq

deriving instance DecidableEq for Except

/-- One constructor per distinct throw site of the configuration code;
each constructor carries the data its Error message interpolates. -/
inductive CfgError where
  | maxCustom
  | invalidName
  | invalidUrlTemplate
  | invalidCategory
  | invalidIcon
  | idExists
  | siteNotFound
  | builtInDelete
  | missingSites (ids : List String)
  | shortcutConflict (names : List String)
  deriving DecidableEq

/-! ## Default registry (defaults.ts) -/

/-- DEFAULT_SITES from defaults.ts, verbatim. -/
def DEFAULT_SITES : List ServiceSite := [
  { id := "github1s", name := "GitHub1s",
    description := "sites.descriptions.github1s", category := "source",
    urlTemplate := "https://github1s.com/{REPO_PATH}", icon := "github",
    enabled := true, order := 1, isBuiltIn := true,
    shortcuts := some { key := "1", modifiers := ["ctrl", "shift"], enabled := true } },
  { id := "github_dev", name := "GitHub.dev",
    description := "sites.descriptions.github_dev", category := "source",
    urlTemplate := "https://github.dev/{REPO_PATH}/", icon := "github",
    enabled := true, order := 2, isBuiltIn := true,
    shortcuts := some { key := "2", modifiers := ["ctrl", "shift"], enabled := true } },
  { id := "sourcegraph", name := "Sourcegraph",
    description := "sites.descriptions.sourcegraph", category := "source",
    urlTemplate := "https://sourcegraph.com/github.com/{REPO_PATH}", icon := "search",
    enabled := true, order := 3, isBuiltIn := true,
    shortcuts := some { key := "3", modifiers := ["ctrl", "shift"], enabled := true } },
  { id := "zread", name := "ZRead",
    description := "sites.descriptions.zread", category := "ai",
    urlTemplate := "https://zread.ai/{REPO_PATH}", icon := "external-link",
    enabled := true, order := 4, isBuiltIn := true,
    shortcuts := some { key := "4", modifiers := ["ctrl", "shift"], enabled := true } },
  { id := "deepwiki", name := "DeepWiki",
    description := "sites.descriptions.deepwiki", category := "ai",
    urlTemplate := "https://deepwiki.com/{REPO_PATH}", icon := "file-text",
    enabled := true, order := 5, isBuiltIn := true,
    shortcuts := some { key := "5", modifiers := ["ctrl", "shift"], enabled := true } }
]

/-- DEFAULT_SETTINGS from defaults.ts. -/
def DEFAULT_SETTINGS : ExtensionSettings :=
  { defaultSiteId := "github_dev", openInNewTab := true,
    showOnHover := false, enableShortcuts := true }

/-- The version literal of DEFAULT_CONFIG in defaults.ts. -/
def DEFAULT_VERSION : String := "1.0.0"

/-- DEFAULT_CONFIG from defaults.ts. -/
def DEFAULT_CONFIG : ExtensionConfig :=
  { sites := DEFAULT_SITES, settings := DEFAULT_SETTINGS, version := DEFAULT_VERSION }

/-- MAX_CUSTOM_SITES from defaults.ts. -/
def MAX_CUSTOM_SITES : Nat := 20

/-- The value column of MODIFIER_KEYS from defaults.ts. -/
def MODIFIER_VALUES : List String := ["ctrl", "alt", "shift", "meta"]

/-- SHORTCUT_KEYS from defaults.ts. -/
def SHORTCUT_KEYS : List String := [
  "1", "2", "3", "4", "5", "6", "7", "8", "9", "0",
  "a", "b", "c", "d", "e", "f", "g", "h", "i", "j", "k", "l", "m",
  "n", "o", "p", "q", "r", "s", "t", "u", "v", "w", "x", "y", "z",
  "F1", "F2", "F3", "F4", "F5", "F6", "F7", "F8", "F9", "F10", "F11", "F12"]

/-! ## String primitives

The JS string operations the code relies on, embedded over the
character list underlying a String. -/

/-- Code-unit comparison underlying the default Array.prototype.sort
comparator, on character lists (all strings involved are ASCII, where
code-unit order and code-point order agree). -/
def jsLeL : List Char → List Char → Bool
  | [], _ => true
  | _ :: _, [] => false
  | a :: as, b :: bs =>
    if a.toNat < b.toNat then true
    else if b.toNat < a.toNat then false
    else jsLeL as bs

/-- Lexicographic string comparison used by the default sort comparator. -/
def jsLe (a b : String) : Bool := jsLeL a.data b.data

/-- Stable insertion of a string into a sorted list under jsLe. -/
def insertJS (a : String) : List String → List String
  | [] => [a]
  | b :: bs => if jsLe a b then a :: b :: bs else b :: insertJS a bs

/-- Models Array.prototype.sort with the default comparator on an array
of strings: the sorted rearrangement under lexicographic code-unit
order (equal strings are identical values, so every correct sort
produces this list). -/
def sortJS : List String → List String
  | [] => []
  | a :: as => insertJS a (sortJS as)

/-- Models Array.prototype.join with separator plus: the pieces
concatenated with a plus character between consecutive pieces. -/
def joinPlusL : List String → List Char
  | [] => []
  | [p] => p.data
  | p :: ps => p.data ++ '+' :: joinPlusL ps

/-- Array.prototype.join with separator plus, as a String. -/
def joinPlus (parts : List String) : String := ⟨joinPlusL parts⟩

/-- The accumulator pass of String.prototype.split with separator
plus: characters seen since the last separator are carried reversed in
the accumulator. -/
def splitPlusAux : List Char → List Char → List String
  | [], acc => [⟨acc.reverse⟩]
  | c :: cs, acc =>
    if c = '+' then ⟨acc.reverse⟩ :: splitPlusAux cs []
    else splitPlusAux cs (c :: acc)

/-- Models String.prototype.split with separator plus. -/
def splitPlus (s : String) : List String := splitPlusAux s.data []

/-- Models String.prototype.replace with a string pattern: only the
first occurrence of the pattern is replaced (no dollar sequences occur
in any replacement used by this program). -/
def replaceFirstL (pat rep : List Char) : List Char → List Char
  | [] => if pat.isEmpty then rep else []
  | c :: cs =>
    if pat.isPrefixOf (c :: cs) then rep ++ (c :: cs).drop pat.length
    else c :: replaceFirstL pat rep cs

/-- Substring membership test on character lists. -/
def hasSubstrL (pat : List Char) : List Char → Bool
  | [] => pat.isEmpty
  | c :: cs => pat.isPrefixOf (c :: cs) || hasSubstrL pat cs

/-- Substring membership test on strings. -/
def containsSubstr (s pat : String) : Bool := hasSubstrL pat.data s.data

/-- The whitespace set of the JS String.prototype.trim relevant here
(the inputs of every claim are ASCII). -/
def jsWhitespace (c : Char) : Bool :=
  c = ' ' || c = '\t' || c = '\n' || c = '\r' ||
  c = '\x0b' || c = '\x0c' || c = '\u00A0' ||
  c = '\u2028' || c = '\u2029' || c = '\uFEFF'

/-- True when the JS expression bang s or s trimmed to empty is true:
the string is empty or entirely whitespace. -/
def jsBlank (s : String) : Bool := s.data.all jsWhitespace

/-! ## Shortcut chord canonicalization (ConfigManager) -/

/-- formatShortcutString: the modifiers sorted (Array.prototype.sort,
lexicographic) followed by the key, joined with plus signs.  The in
place mutation that the JS sort performs on the modifiers array is
modelled separately by sortMods at the call sites that persist the
mutated arrays. -/
def formatShortcutString (k : ShortcutKey) : String :=
  joinPlus (sortJS k.modifiers ++ [k.key])

/-- parseShortcutString: split on plus, fail when fewer than two
tokens, otherwise the last token is the key and the earlier tokens are
the modifiers; enabled is set to true. -/
def parseShortcutString (s : String) : Option ShortcutKey :=
  let parts := splitPlus s
  if parts.length < 2 then none
  else some { key := parts.getLastD "", modifiers := parts.dropLast, enabled := true }

/-- validateShortcut: at least one modifier, every modifier in the
fixed modifier set, and the key in SHORTCUT_KEYS. -/
def validateShortcut (k : ShortcutKey) : Bool :=
  !(k.modifiers.length == 0) &&
  k.modifiers.all (fun m => MODIFIER_VALUES.contains m) &&
  SHORTCUT_KEYS.contains k.key

/-- The value-level effect of the in place Array.prototype.sort that
formatShortcutString performs on the modifiers array of its argument. -/
def sortMods (k : ShortcutKey) : ShortcutKey :=
  { k with modifiers := sortJS k.modifiers }

/-! ## URL template validation (defaults.ts, ConfigManager) -/

/-- A character matched by an unescaped dot of a JS regex without the
dotAll flag: anything but a line terminator. -/
def jsDot (c : Char) : Bool :=
  !(c = '\n' || c = '\r' || c = '\u2028' || c = '\u2029')

/-- The literal placeholder the validation regex in defaults.ts
searches for.  Note the casing: the regex source is
caret https question mark colon slash slash dot plus, then the literal
braces around repoPath, then dot star — it is repoPath, not REPO_PATH,
that the regex requires. -/
def regexToken : List Char := "{repoPath}".data

/-- Matches dot star followed by the token: the token occurs here or
after any run of dot-matching characters. -/
def dotStarToken (tok : List Char) : List Char → Bool
  | [] => tok.isEmpty
  | c :: cs => tok.isPrefixOf (c :: cs) || (jsDot c && dotStarToken tok cs)

/-- Matches dot plus followed by the token: at least one dot-matching
character, then dot star and the token. -/
def dotPlusToken (tok : List Char) : List Char → Bool
  | [] => false
  | c :: cs => jsDot c && dotStarToken tok cs

/-- Models URL_TEMPLATE_REGEX.test: anchored at the start, http or
https scheme, at least one character, then the literal token
left-brace repoPath right-brace (the trailing dot star of the regex
constrains nothing). -/
def urlTemplateRegexTest (s : String) : Bool :=
  if ("https://".data).isPrefixOf s.data then dotPlusToken regexToken (s.data.drop 8)
  else if ("http://".data).isPrefixOf s.data then dotPlusToken regexToken (s.data.drop 7)
  else false

/-- ConfigManager.validateSiteInput, one error per throw site, checked
in source order. -/
def validateSiteInput (input : CreateSiteInput) : Except CfgError Unit :=
  if jsBlank input.name then .error .invalidName
  else if input.urlTemplate == "" || !urlTemplateRegexTest input.urlTemplate then
    .error .invalidUrlTemplate
  else if !(["source", "ai"].contains input.category) then .error .invalidCategory
  else if jsBlank input.icon then .error .invalidIcon
  else .ok ()

/-! ## Storage plumbing (StorageManager, typed documents)

Stored documents handled by the manager operations are embedded at the
ExtensionConfig type; the untyped read path (absent, malformed or
version-mismatched stored values) is modelled separately below for the
load claim.  StorageManager.saveConfig shape-validates (a typed
document always passes: its sites field is an array and its settings
field is an object) and stamps the current default version. -/

/-- StorageManager.migrateConfig on a typed document: when the version
differs from the current one every site is rebuilt with its shortcut
object given an explicit enabled flag (always already present on a
typed document) and the version is stamped. -/
def migrateSite (s : ServiceSite) : ServiceSite :=
  { s with shortcuts := s.shortcuts.map (fun k => { k with enabled := k.enabled }) }

/-- StorageManager.migrateConfig (typed form). -/
def migrateConfig (c : ExtensionConfig) : ExtensionConfig :=
  if c.version == DEFAULT_VERSION then c
  else { c with sites := c.sites.map migrateSite, version := DEFAULT_VERSION }

/-- StorageManager.getConfig on a well-typed stored document: the
document is shape-valid, so it is returned after migration. -/
def getConfigFrom (c : ExtensionConfig) : ExtensionConfig := migrateConfig c

/-- StorageManager.getSites: the sites of the loaded document. -/
def getSites (c : ExtensionConfig) : List ServiceSite := (getConfigFrom c).sites

/-- StorageManager.saveConfig: overwrite the document, stamping the
current default version (shape validation always passes on a typed
document). -/
def saveConfigStamp (c : ExtensionConfig) : ExtensionConfig :=
  { c with version := DEFAULT_VERSION }

/-- StorageManager.saveSites: write the sites list into the otherwise
unmodified loaded document and save it. -/
def saveSitesTo (cfg : ExtensionConfig) (sites : List ServiceSite) : ExtensionConfig :=
  saveConfigStamp { getConfigFrom cfg with sites := sites }

/-! ## ConfigManager operations

Each mutating operation takes the stored document and returns the pair
of the stored document after the call and the JS return value or
thrown error; the document is unchanged whenever the code throws,
since every throw happens before the save call. -/

/-- Replace the first element satisfying the predicate (the array
element assignment at the index found by findIndex). -/
def setFirst (p : α → Bool) (y : α) : List α → List α
  | [] => []
  | x :: xs => if p x then y :: xs else x :: setFirst p y xs

/-- The slug cleanup inside ConfigManager.generateSiteId: lower-case,
non-alphanumeric characters to dashes, dash runs collapsed, then at
most one leading and one trailing dash removed (the regex
caret-dash-or-dash-dollar removes one occurrence of each). -/
def slugChar (c : Char) : Char :=
  let lc := c.toLower
  if ('a' ≤ lc && lc ≤ 'z') || ('0' ≤ lc && lc ≤ '9') then lc else '-'

/-- Collapse runs of dashes to a single dash. -/
def collapseDashes : List Char → Bool → List Char
  | [], _ => []
  | c :: cs, prevDash =>
    if c = '-' then
      if prevDash then collapseDashes cs true else '-' :: collapseDashes cs true
    else c :: collapseDashes cs false

/-- Remove at most one leading dash. -/
def dropLeadDash : List Char → List Char
  | '-' :: cs => cs
  | cs => cs

/-- Remove at most one trailing dash. -/
def dropTrailDash (l : List Char) : List Char :=
  (dropLeadDash l.reverse).reverse

/-- ConfigManager.generateSiteId: custom dash slug dash timestamp. -/
def generateSiteId (name : String) (now : Nat) : String :=
  let base : String :=
    ⟨dropTrailDash (dropLeadDash (collapseDashes (name.data.map slugChar) false))⟩
  "custom-" ++ base ++ "-" ++ toString now

/-- ConfigManager.addSite.  The Date.now() timestamp is passed in as
the parameter now. -/
def addSite (cfg : ExtensionConfig) (input : CreateSiteInput) (now : Nat) :
    ExtensionConfig × Except CfgError ServiceSite :=
  let sites := getSites cfg
  let customSitesCount := (sites.filter (fun s => !s.isBuiltIn)).length
  if MAX_CUSTOM_SITES ≤ customSitesCount then (cfg, .error .maxCustom)
  else
    match validateSiteInput input with
    | .error e => (cfg, .error e)
    | .ok _ =>
      let id := generateSiteId input.name now
      if sites.any (fun s => s.id == id) then (cfg, .error .idExists)
      else
        let newSite : ServiceSite :=
          { id := id, name := input.name, description := input.description,
            category := input.category, urlTemplate := input.urlTemplate,
            icon := input.icon, enabled := input.enabled,
            shortcuts := input.shortcuts, isBuiltIn := false,
            order := (sites.map (fun s => s.order)).foldr max 0 + 1 }
        (saveSitesTo cfg (sites ++ [newSite]), .ok newSite)

/-- JS truthiness of an optional string field of a patch: present and
not the empty string. -/
def truthyStr (o : Option String) : Bool :=
  match o with
  | some s => !(s == "")
  | none => false

/-- The JS expression patchField or currentField: the patch value when
present and truthy, else the current value. -/
def jsOr (o : Option String) (d : String) : String :=
  match o with
  | some s => if s == "" then d else s
  | none => d

/-- The object spread merging the patch onto the current site (key
presence, not truthiness, decides each field; id and isBuiltIn are not
part of the patch type). -/
def applyPatch (s : ServiceSite) (u : UpdateSiteInput) : ServiceSite :=
  { id := s.id, isBuiltIn := s.isBuiltIn,
    name := u.name.getD s.name, description := u.description.getD s.description,
    category := u.category.getD s.category,
    urlTemplate := u.urlTemplate.getD s.urlTemplate,
    icon := u.icon.getD s.icon, enabled := u.enabled.getD s.enabled,
    order := u.order.getD s.order, shortcuts := u.shortcuts.getD s.shortcuts }

/-- ConfigManager.updateSite: find the site, re-validate only when one
of the four truthy-checked fields is in the patch (each validated
field falling back to the current value when absent or empty), merge
and persist. -/
def updateSite (cfg : ExtensionConfig) (id : String) (u : UpdateSiteInput) :
    ExtensionConfig × Except CfgError ServiceSite :=
  let sites := getSites cfg
  match sites.find? (fun s => s.id == id) with
  | none => (cfg, .error .siteNotFound)
  | some currentSite =>
    let needsValidation :=
      truthyStr u.name || truthyStr u.urlTemplate || truthyStr u.category || truthyStr u.icon
    let vres :=
      if needsValidation then
        validateSiteInput
          { name := jsOr u.name currentSite.name,
            description := jsOr u.description currentSite.description,
            category := jsOr u.category currentSite.category,
            urlTemplate := jsOr u.urlTemplate currentSite.urlTemplate,
            icon := jsOr u.icon currentSite.icon,
            enabled := u.enabled.getD currentSite.enabled,
            shortcuts := none }
      else Except.ok ()
    match vres with
    | .error e => (cfg, .error e)
    | .ok _ =>
      let updatedSite := applyPatch currentSite u
      (saveSitesTo cfg (setFirst (fun s => s.id == id) updatedSite sites), .ok updatedSite)

/-- The patch object the code builds for toggleSite. -/
def togglePatch (enabled : Bool) : UpdateSiteInput :=
  { name := none, description := none, category := none, urlTemplate := none,
    icon := none, enabled := some enabled, order := none, shortcuts := none }

/-- ConfigManager.toggleSite: sugar for updateSite with an
enabled-only patch. -/
def toggleSite (cfg : ExtensionConfig) (id : String) (enabled : Bool) :
    ExtensionConfig × Except CfgError ServiceSite :=
  updateSite cfg id (togglePatch enabled)

/-- ConfigManager.deleteSite: unknown id and built-in sites reject;
otherwise every site with that id is filtered out and the list is
persisted. -/
def deleteSite (cfg : ExtensionConfig) (id : String) :
    ExtensionConfig × Except CfgError Unit :=
  let sites := getSites cfg
  match sites.find? (fun s => s.id == id) with
  | none => (cfg, .error .siteNotFound)
  | some site =>
    if site.isBuiltIn then (cfg, .error .builtInDelete)
    else (saveSitesTo cfg (sites.filter (fun s => s.id != id)), .ok ())

/-- A placeholder record for the non-null assertion on the Map lookup
in reorderSites; the guard preceding the lookup makes it unreachable. -/
def dummySite : ServiceSite :=
  { id := "", name := "", description := "", category := "", urlTemplate := "",
    icon := "", enabled := false, order := 0, isBuiltIn := false, shortcuts := none }

/-- The JS Map built from the sites list, looked up by id: for
duplicate keys the later entry wins. -/
def siteMapGet (sites : List ServiceSite) (id : String) : ServiceSite :=
  ((sites.filter (fun s => s.id == id)).getLastD dummySite)

/-- A site with its order field cleared, used to compare lists of
sites up to their assigned order values. -/
def eraseOrder (s : ServiceSite) : ServiceSite := { s with order := 0 }

/-- ConfigManager.reorderSites: reject when any id is unknown;
otherwise the listed ids get order one to N in sequence, the sites not
listed follow with continuing order values in their original relative
order, and the whole list is persisted and returned. -/
def reorderSites (cfg : ExtensionConfig) (siteIds : List String) :
    ExtensionConfig × Except CfgError (List ServiceSite) :=
  let sites := getSites cfg
  let missingIds := siteIds.filter (fun id => !(sites.any (fun s => s.id == id)))
  if !missingIds.isEmpty then (cfg, .error (.missingSites missingIds))
  else
    let reorderedSites := siteIds.enum.map
      (fun p => { siteMapGet sites p.2 with order := (p.1 : Int) + 1 })
    let unorderedSites := (sites.filter (fun s => !(siteIds.contains s.id))).enum.map
      (fun p => { p.2 with order := (reorderedSites.length : Int) + p.1 + 1 })
    let allSites := reorderedSites ++ unorderedSites
    (saveSitesTo cfg allSites, .ok allSites)

/-- ConfigManager.generateSiteUrl: the first occurrence of the literal
token REPO_PATH in braces in the url template is replaced by the
repository path, with no escaping or encoding. -/
def generateSiteUrl (site : ServiceSite) (repoPath : String) : String :=
  ⟨replaceFirstL "{REPO_PATH}".data repoPath.data site.urlTemplate.data⟩

/-- The shortcuts question mark enabled test of the code: true when a
shortcut object is present and its enabled flag is true. -/
def shortcutEnabledOf (s : ServiceSite) : Bool :=
  match s.shortcuts with
  | some k => k.enabled
  | none => false

/-- ConfigManager.checkShortcutConflicts: over all sites, those that
are not the excluded site and carry an enabled shortcut whose
canonical string equals the candidate string; the conflict record
stores the stored chord, whose modifiers array the in place sort of
formatShortcutString has just sorted. -/
def checkShortcutConflicts (sites : List ServiceSite) (excludeSiteId : String)
    (shortcut : ShortcutKey) : List ShortcutConflict :=
  let shortcutStr := formatShortcutString shortcut
  sites.filterMap (fun site =>
    match site.shortcuts with
    | some k =>
      if site.id != excludeSiteId && k.enabled &&
          (formatShortcutString k == shortcutStr) then
        some { siteId := site.id, siteName := site.name, shortcut := sortMods k }
      else none
    | none => none)

/-- ConfigManager.updateSiteShortcut.  When the new chord is enabled
the conflict check runs first and, via the in place Array sort inside
formatShortcutString, leaves the modifiers array of every other
enabled stored shortcut sorted; those mutated arrays are then
persisted by the save on the success path.  All rejections happen
before the save. -/
def updateSiteShortcut (cfg : ExtensionConfig) (siteId : String)
    (shortcut : Option ShortcutKey) : ExtensionConfig × Except CfgError ServiceSite :=
  let sites := getSites cfg
  match sites.find? (fun s => s.id == siteId) with
  | none => (cfg, .error .siteNotFound)
  | some currentSite =>
    match shortcut with
    | some sc =>
      if sc.enabled then
        let conflicts := checkShortcutConflicts sites siteId sc
        if conflicts.isEmpty then
          let sitesM := sites.map (fun s =>
            if s.id != siteId && shortcutEnabledOf s then
              { s with shortcuts := s.shortcuts.map sortMods }
            else s)
          let updatedSite := { currentSite with shortcuts := some (sortMods sc) }
          (saveSitesTo cfg (setFirst (fun s => s.id == siteId) updatedSite sitesM),
           .ok updatedSite)
        else (cfg, .error (.shortcutConflict (conflicts.map (fun c => c.siteName))))
      else
        let updatedSite := { currentSite with shortcuts := some sc }
        (saveSitesTo cfg (setFirst (fun s => s.id == siteId) updatedSite sites),
         .ok updatedSite)
    | none =>
      let updatedSite := { currentSite with shortcuts := none }
      (saveSitesTo cfg (setFirst (fun s => s.id == siteId) updatedSite sites),
       .ok updatedSite)

/-- The scan order of ConfigManager.getSuggestedShortcut: the digit
keys one through nine and then zero. -/
def scanKeys : List String := ["1", "2", "3", "4", "5", "6", "7", "8", "9", "0"]

/-- The chord the suggestion scanner proposes for a given digit key. -/
def ctrlShift (key : String) : ShortcutKey :=
  { key := key, modifiers := ["ctrl", "shift"], enabled := true }

/-- ConfigManager.getSuggestedShortcut: collect the canonical strings
of the enabled shortcuts of every other site (whatever the enabled
flag of the site itself), then return the first scanned ctrl shift
digit combination whose canonical string is not among them. -/
def getSuggestedShortcut (cfg : ExtensionConfig) (siteId : String) : Option ShortcutKey :=
  let sites := getSites cfg
  let usedShortcuts := sites.filterMap (fun site =>
    match site.shortcuts with
    | some k => if site.id != siteId && k.enabled then some (formatShortcutString k) else none
    | none => none)
  (scanKeys.find? (fun key =>
      !(usedShortcuts.contains
        (formatShortcutString { key := key, modifiers := ["ctrl", "shift"], enabled := true })))).map
    (fun key => { key := key, modifiers := ["ctrl", "shift"], enabled := true })

/-- The canonical strings the suggestion scanner treats as taken: the
enabled shortcuts of every site other than the excluded one, whatever
the enabled flag of the site itself. -/
def usedShortcutStrings (cfg : ExtensionConfig) (siteId : String) : List String :=
  cfg.sites.filterMap (fun site =>
    match site.shortcuts with
    | some k => if site.id != siteId && k.enabled then some (formatShortcutString k) else none
    | none => none)

/-! ## Export and import (StorageManager)

The JSON text of an export snapshot is embedded as the record of what
it serializes: parse after stringify is the identity on the JSON-safe
document, so the text itself carries no further information. -/

/-- The ConfigExport shape from types.ts: the document plus the export
timestamp. -/
structure ConfigExport where
  sites : List ServiceSite
  settings : ExtensionSettings
  version : String
  exportDate : String
  deriving DecidableEq

/-- StorageManager.exportConfig: the loaded document spread into a new
object with an exportDate added, then stringified. -/
def exportConfig (cfg : ExtensionConfig) (exportDate : String) : ConfigExport :=
  let c := getConfigFrom cfg
  { sites := c.sites, settings := c.settings, version := c.version,
    exportDate := exportDate }

/-- StorageManager.mergeWithDefault: the version is the current
default, the imported sites array (always truthy in JS, even when
empty) wholly replaces the default sites, and the spread of the
imported settings over the default settings yields the imported
settings, every settings key being present on a typed document. -/
def mergeWithDefault (data : ConfigExport) : ExtensionConfig :=
  { version := DEFAULT_VERSION, sites := data.sites, settings := data.settings }

/-- StorageManager.importConfig on a shape-valid snapshot: parse
(embedded as the record itself), validate (a typed snapshot passes:
sites is an array, settings an object), merge onto defaults, save with
the version stamp, return the merged document. -/
def importConfig (_cfg : ExtensionConfig) (data : ConfigExport) :
    ExtensionConfig × Except CfgError ExtensionConfig :=
  let mergedConfig := mergeWithDefault data
  (saveConfigStamp mergedConfig, .ok mergedConfig)

/-! ## The raw read path (StorageManager.getConfig on arbitrary stored
values)

The stored value reaching getConfig is untyped JSON.  For the load
claim the relevant distinctions are: no stored value at all, a stored
value failing the isValidConfig shape check (an object with a sites
array and a settings object; a storage read error lands on the same
fallback), and a shape-valid document, in which a shortcut object may
lack the enabled flag that the migration backfills.  Shape-valid
documents are embedded with an optional enabled flag on shortcuts. -/

/-- A stored shortcut object whose enabled flag may be absent. -/
structure RawShortcut where
  key : String
  modifiers : List String
  enabled : Option Bool
  deriving DecidableEq

/-- A stored site object of a shape-valid document. -/
structure RawSite where
  id : String
  name : String
  description : String
  category : String
  urlTemplate : String
  icon : String
  enabled : Bool
  order : Int
  isBuiltIn : Bool
  shortcuts : Option RawShortcut
  deriving DecidableEq

/-- A shape-valid stored document. -/
structure RawConfig where
  sites : List RawSite
  settings : ExtensionSettings
  version : String
  deriving DecidableEq

/-- The stored value as the read path distinguishes it. -/
inductive StoredValue where
  | absent
  | malformed
  | stored (c : RawConfig)
  deriving DecidableEq

/-- A typed shortcut viewed as a stored one (enabled present). -/
def RawShortcut.ofTyped (k : ShortcutKey) : RawShortcut :=
  { key := k.key, modifiers := k.modifiers, enabled := some k.enabled }

/-- A typed site viewed as a stored one. -/
def RawSite.ofTyped (s : ServiceSite) : RawSite :=
  { id := s.id, name := s.name, description := s.description,
    category := s.category, urlTemplate := s.urlTemplate, icon := s.icon,
    enabled := s.enabled, order := s.order, isBuiltIn := s.isBuiltIn,
    shortcuts := s.shortcuts.map RawShortcut.ofTyped }

/-- A typed document viewed as a stored one (used for the deep copy of
DEFAULT_CONFIG that the read path falls back to). -/
def RawConfig.ofTyped (c : ExtensionConfig) : RawConfig :=
  { sites := c.sites.map RawSite.ofTyped, settings := c.settings,
    version := c.version }

/-- The per-site backfill of StorageManager.migrateConfig: a present
shortcut object gets an explicit enabled flag, defaulting to true when
it was absent. -/
def backfillSite (s : RawSite) : RawSite :=
  { s with shortcuts :=
      (s.shortcuts.map (fun k => { k with enabled := some (k.enabled.getD true) })) }

/-- StorageManager.migrateConfig on a shape-valid stored document. -/
def migrateRaw (c : RawConfig) : RawConfig :=
  if c.version == DEFAULT_VERSION then c
  else { c with sites := c.sites.map backfillSite, version := DEFAULT_VERSION }

/-- StorageManager.getConfig over an arbitrary stored value: a deep
copy of the defaults when the value is absent or fails shape
validation (or the read throws), the migrated document otherwise;
the function is total, a load never fails. -/
def getConfigRaw : StoredValue → RawConfig
  | .absent => RawConfig.ofTyped DEFAULT_CONFIG
  | .malformed => RawConfig.ofTyped DEFAULT_CONFIG
  | .stored c => migrateRaw c

/-! ## The suggestion scanner as the specification words it

Modelled from the spec, for comparison with getSuggestedShortcut: scan
digit keys zero through nine in ascending order, paired with ctrl and
shift, and return the first canonical combination not already in use
by any other enabled site (excluding the given site). -/

/-- The canonical strings in use by enabled sites other than the
excluded one, reading "in use by any other enabled site" as sites
whose own enabled flag and whose shortcut enabled flag are both
true. -/
def specUsedShortcuts (cfg : ExtensionConfig) (siteId : String) : List String :=
  cfg.sites.filterMap (fun site =>
    match site.shortcuts with
    | some k =>
      if site.id != siteId && site.enabled && k.enabled then
        some (formatShortcutString k)
      else none
    | none => none)

/-- Modelled from the spec: the ascending scan over the digit keys
zero through nine. -/
def specGetSuggestedShortcut (cfg : ExtensionConfig) (siteId : String) :
    Option ShortcutKey :=
  let used := specUsedShortcuts cfg siteId
  ((["0", "1", "2", "3", "4", "5", "6", "7", "8", "9"]).find? (fun key =>
      !(used.contains
        (formatShortcutString { key := key, modifiers := ["ctrl", "shift"], enabled := true })))).map
    (fun key => { key := key, modifiers := ["ctrl", "shift"], enabled := true })

/-- A sample stored document with an outdated version and a shortcut
lacking its enabled flag, exercising the migration path. -/
def sampleOldRaw : RawConfig :=
  { sites := [
      { id := "x", name := "X", description := "", category := "source",
        urlTemplate := "https://x.example/{REPO_PATH}", icon := "github",
        enabled := true, order := 1, isBuiltIn := false,
        shortcuts := some { key := "1", modifiers := ["ctrl"], enabled := none } }],
    settings := DEFAULT_SETTINGS, version := "0.0.1" }

/-- A stored document carrying an outdated version string, used to
exercise the version stamping of the save path. -/
def oldVersionConfig : ExtensionConfig :=
  { sites := DEFAULT_SITES, settings := DEFAULT_SETTINGS, version := "0.9.0" }

/-! ## Plumbing lemmas -/

/-- On a typed document the per-site migration rebuild is the
identity. -/
theorem migrateSite_eq (s : ServiceSite) : migrateSite s = s := by
  cases s with
  | mk id name description category urlTemplate icon enabled order isBuiltIn shortcuts =>
    cases shortcuts <;> rfl

/-- Migration of a typed document leaves the sites untouched. -/
theorem migrateConfig_sites (c : ExtensionConfig) : (migrateConfig c).sites = c.sites := by
  unfold migrateConfig
  split
  · rfl
  · exact List.map_id'' migrateSite_eq c.sites

/-- Migration leaves the settings untouched. -/
theorem migrateConfig_settings (c : ExtensionConfig) :
    (migrateConfig c).settings = c.settings := by
  unfold migrateConfig
  split <;> rfl

/-- Migration always leaves the current default version on the
document. -/
theorem migrateConfig_version (c : ExtensionConfig) :
    (migrateConfig c).version = DEFAULT_VERSION := by
  unfold migrateConfig
  split
  · next h => exact (beq_iff_eq.mp h)
  · rfl

/-- The sites the manager reads are the sites of the stored
document. -/
theorem getSites_eq (c : ExtensionConfig) : getSites c = c.sites :=
  migrateConfig_sites c

/-- What the save path writes: the new sites, the old settings, the
stamped version. -/
theorem saveSitesTo_eq (cfg : ExtensionConfig) (sites : List ServiceSite) :
    saveSitesTo cfg sites =
      { sites := sites, settings := cfg.settings, version := DEFAULT_VERSION } := by
  show ExtensionConfig.mk sites (migrateConfig cfg).settings DEFAULT_VERSION = _
  rw [migrateConfig_settings]

/-! ## C1 -/

/-- C1: the claim says addSite succeeds for every valid input whose
urlTemplate starts with http or https and contains the REPO_PATH
placeholder (in braces), and rejects when the placeholder is missing.
The code is wrong: its validation regex requires the differently cased
token repoPath in braces, contradicting the error message of the very
throw site, the urlTemplate documentation in types.ts, the five
DEFAULT_SITES templates and generateSiteUrl, all of which use
REPO_PATH.  Witnessed here: an input whose template starts with https
and contains the REPO_PATH placeholder is rejected with the url
template validation error, while a template carrying only the
lower-cased token (and no REPO_PATH placeholder at all) passes
validation. -/
theorem c1_addSite_url_validation_code_bug :
    (addSite DEFAULT_CONFIG
      { name := "My Mirror", description := "A mirror site", category := "source",
        urlTemplate := "https://example.com/{REPO_PATH}", icon := "github",
        enabled := true, shortcuts := none } 1700000000000)
      = (DEFAULT_CONFIG, .error .invalidUrlTemplate)
    ∧ containsSubstr "https://example.com/{REPO_PATH}" "{REPO_PATH}" = true
    ∧ ("https://".data).isPrefixOf ("https://example.com/{REPO_PATH}".data) = true
    ∧ validateSiteInput
        { name := "My Mirror", description := "A mirror site", category := "source",
          urlTemplate := "https://example.com/{repoPath}", icon := "github",
          enabled := true, shortcuts := none } = .ok ()
    ∧ containsSubstr "https://example.com/{repoPath}" "{REPO_PATH}" = false := by
  refine ⟨by decide, by decide, by decide, by decide, by decide⟩

/-! ## C2 -/

/-- C2: updateSiteShortcut with an enabled chord rejects with the
conflict error, carrying the conflicting site names, whenever another
site holds an enabled shortcut with the same canonical string, and the
stored document is unchanged by the rejection; from the default
configuration, assigning ctrl shift 1 to github underscore dev rejects
naming GitHub1s, which owns that chord. -/
theorem c2_updateSiteShortcut_conflict_rejects :
    (∀ (cfg : ExtensionConfig) (siteId : String) (sc : ShortcutKey),
      sc.enabled = true →
      (∃ s ∈ cfg.sites, s.id = siteId) →
      (∃ other ∈ cfg.sites, other.id ≠ siteId ∧ ∃ k, other.shortcuts = some k ∧
          k.enabled = true ∧ formatShortcutString k = formatShortcutString sc) →
      (updateSiteShortcut cfg siteId (some sc)).1 = cfg ∧
      ∃ names, names ≠ [] ∧
        (updateSiteShortcut cfg siteId (some sc)).2 =
          .error (.shortcutConflict names))
    ∧ updateSiteShortcut DEFAULT_CONFIG "github_dev"
        (some { key := "1", modifiers := ["ctrl", "shift"], enabled := true })
      = (DEFAULT_CONFIG, .error (.shortcutConflict ["GitHub1s"])) := by
  constructor
  · intro cfg siteId sc hen hsite hconf
    obtain ⟨cur, hcur⟩ : ∃ cur, cfg.sites.find? (fun s => s.id == siteId) = some cur := by
      apply Option.isSome_iff_exists.mp
      rw [List.find?_isSome]
      obtain ⟨s0, hmem, hid⟩ := hsite
      exact ⟨s0, hmem, by simp [hid]⟩
    have hconflicts : checkShortcutConflicts cfg.sites siteId sc ≠ [] := by
      obtain ⟨other, hmem, hid, k, hk, hken, hfmt⟩ := hconf
      intro hnil
      simp only [checkShortcutConflicts] at hnil
      have hnone := List.filterMap_eq_nil_iff.mp hnil other hmem
      rw [hk] at hnone
      simp [hid, hken, hfmt] at hnone
    have hne : (checkShortcutConflicts cfg.sites siteId sc).isEmpty = false := by
      simp [hconflicts]
    simp only [updateSiteShortcut, getSites_eq, hcur, hen, hne, if_true, if_false,
      Bool.false_eq_true]
    refine ⟨?_, (checkShortcutConflicts cfg.sites siteId sc).map (fun c => c.siteName),
      ?_, ?_⟩
    · trivial
    · simp [hconflicts]
    · rfl
  · decide

/-- Witness for C2: the general rejection statement applied to the
default configuration and the github underscore dev chord. -/
theorem c2_updateSiteShortcut_conflict_rejects_witness :
    (updateSiteShortcut DEFAULT_CONFIG "github_dev"
        (some { key := "1", modifiers := ["ctrl", "shift"], enabled := true })).1
      = DEFAULT_CONFIG ∧
    ∃ names, names ≠ [] ∧
      (updateSiteShortcut DEFAULT_CONFIG "github_dev"
        (some { key := "1", modifiers := ["ctrl", "shift"], enabled := true })).2 =
        .error (.shortcutConflict names) :=
  c2_updateSiteShortcut_conflict_rejects.1 DEFAULT_CONFIG "github_dev"
    { key := "1", modifiers := ["ctrl", "shift"], enabled := true }
    rfl
    ⟨DEFAULT_SITES.get ⟨1, by decide⟩, by decide, by decide⟩
    ⟨DEFAULT_SITES.get ⟨0, by decide⟩, by decide, by decide,
      { key := "1", modifiers := ["ctrl", "shift"], enabled := true },
      by decide, rfl, by decide⟩

/-! ## C6 -/

/-- C6: deleteSite rejects with the immutability error on every
built-in site, leaving the stored document unchanged, and rejects on
unknown ids; on a known non built-in site it removes exactly the sites
with that id and persists; toggleSite disable succeeds on the same id
(its patch contains none of the validated fields, so no re-validation
runs) and persists the site with enabled false; in particular each of
the five built-in ids rejects deletion and accepts disabling. -/
theorem c6_deleteSite_builtin_toggle :
    (∀ (cfg : ExtensionConfig) (id : String) (s : ServiceSite),
      cfg.sites.find? (fun t => t.id == id) = some s →
      (s.isBuiltIn = true → deleteSite cfg id = (cfg, .error .builtInDelete)) ∧
      (s.isBuiltIn = false →
        deleteSite cfg id =
          ({ sites := cfg.sites.filter (fun t => t.id != id),
             settings := cfg.settings, version := DEFAULT_VERSION }, .ok ())) ∧
      (∀ b, toggleSite cfg id b =
        ({ sites := setFirst (fun t => t.id == id) { s with enabled := b } cfg.sites,
           settings := cfg.settings, version := DEFAULT_VERSION },
         .ok { s with enabled := b })))
    ∧ (∀ (cfg : ExtensionConfig) (id : String),
        (∀ s ∈ cfg.sites, s.id ≠ id) →
        deleteSite cfg id = (cfg, .error .siteNotFound))
    ∧ (∀ id ∈ ["github1s", "github_dev", "sourcegraph", "zread", "deepwiki"],
        deleteSite DEFAULT_CONFIG id = (DEFAULT_CONFIG, .error .builtInDelete) ∧
        ((toggleSite DEFAULT_CONFIG id false).2).isOk = true ∧
        ((toggleSite DEFAULT_CONFIG id false).1).sites.all
          (fun t => t.id != id || !t.enabled) = true) := by
  refine ⟨?_, ?_, by decide⟩
  · intro cfg id s hfind
    refine ⟨?_, ?_, ?_⟩
    · intro hb
      simp only [deleteSite, getSites_eq, hfind, hb, if_true]
    · intro hnb
      simp only [deleteSite, getSites_eq, hfind, hnb, Bool.false_eq_true, if_false,
        saveSitesTo_eq]
    · intro b
      simp only [toggleSite, updateSite, getSites_eq, hfind, togglePatch, truthyStr,
        Bool.or_self, Bool.false_eq_true, if_false, saveSitesTo_eq]
      rfl
  · intro cfg id h
    have hnone : cfg.sites.find? (fun t => t.id == id) = none := by
      rw [List.find?_eq_none]
      intro x hx
      simp [h x hx]
    simp only [deleteSite, getSites_eq, hnone]

/-- Witness for C6: the general statements applied to the default
configuration at github1s and at an unknown id. -/
theorem c6_deleteSite_builtin_toggle_witness :
    deleteSite DEFAULT_CONFIG "github1s" = (DEFAULT_CONFIG, .error .builtInDelete) ∧
    deleteSite DEFAULT_CONFIG "no-such-site" = (DEFAULT_CONFIG, .error .siteNotFound) :=
  ⟨(c6_deleteSite_builtin_toggle.1 DEFAULT_CONFIG "github1s"
      (DEFAULT_SITES.get ⟨0, by decide⟩) (by decide)).1 rfl,
   c6_deleteSite_builtin_toggle.2.1 DEFAULT_CONFIG "no-such-site" (by decide)⟩

/-! ## C3: sorting and splitting lemmas -/

/-- The code-unit comparison is total. -/
theorem jsLeL_total (as : List Char) : ∀ bs, jsLeL as bs = true ∨ jsLeL bs as = true := by
  induction as with
  | nil => intro bs; left; rfl
  | cons a as ih =>
    intro bs
    cases bs with
    | nil => right; rfl
    | cons b bs =>
      by_cases h1 : a.toNat < b.toNat
      · left; simp [jsLeL, h1]
      · by_cases h2 : b.toNat < a.toNat
        · right; simp [jsLeL, h1, h2]
        · rcases ih bs with h | h
          · left; simp [jsLeL, h1, h2, h]
          · right; simp [jsLeL, h1, h2, h]

/-- Unfolding equation for the comparison on two nonempty lists. -/
theorem jsLeL_cons (a b : Char) (as bs : List Char) :
    jsLeL (a :: as) (b :: bs) =
      if a.toNat < b.toNat then true
      else if b.toNat < a.toNat then false
      else jsLeL as bs := rfl

/-- The code-unit comparison is transitive. -/
theorem jsLeL_trans {as : List Char} : ∀ {bs cs},
    jsLeL as bs = true → jsLeL bs cs = true → jsLeL as cs = true := by
  induction as with
  | nil => intros; rfl
  | cons a as ih =>
    intro bs cs h1 h2
    cases bs with
    | nil => simp [jsLeL] at h1
    | cons b bs =>
      cases cs with
      | nil => simp [jsLeL] at h2
      | cons c cs =>
        rw [jsLeL_cons] at h1 h2 ⊢
        rcases Nat.lt_trichotomy a.toNat b.toNat with hab | hab | hab <;>
          rcases Nat.lt_trichotomy b.toNat c.toNat with hbc | hbc | hbc
        · simp [show a.toNat < c.toNat by omega]
        · simp [show a.toNat < c.toNat by omega]
        · simp [show ¬b.toNat < c.toNat by omega, hbc] at h2
        · simp [show a.toNat < c.toNat by omega]
        · simp only [show ¬a.toNat < b.toNat by omega,
            show ¬b.toNat < a.toNat by omega, if_neg, if_false] at h1
          simp only [show ¬b.toNat < c.toNat by omega,
            show ¬c.toNat < b.toNat by omega, if_neg, if_false] at h2
          simp only [show ¬a.toNat < c.toNat by omega,
            show ¬c.toNat < a.toNat by omega, if_neg, if_false]
          exact ih h1 h2
        · simp [show ¬b.toNat < c.toNat by omega, hbc] at h2
        · simp [show ¬a.toNat < b.toNat by omega, hab] at h1
        · simp [show ¬a.toNat < b.toNat by omega, hab] at h1
        · simp [show ¬a.toNat < b.toNat by omega, hab] at h1

/-- Totality at the string level. -/
theorem jsLe_total (a b : String) : jsLe a b = true ∨ jsLe b a = true :=
  jsLeL_total a.data b.data

/-- Transitivity at the string level. -/
theorem jsLe_trans {a b c : String} :
    jsLe a b = true → jsLe b c = true → jsLe a c = true :=
  fun h1 h2 => jsLeL_trans h1 h2

/-- Inserting preserves the multiset of elements. -/
theorem insertJS_perm (a : String) (l : List String) : List.Perm (insertJS a l) (a :: l) := by
  induction l with
  | nil => exact List.Perm.refl _
  | cons b bs ih =>
    simp only [insertJS]
    split
    · exact List.Perm.refl _
    · exact (ih.cons b).trans (List.Perm.swap a b bs)

/-- The JS sort result is a permutation of its input. -/
theorem sortJS_perm (l : List String) : List.Perm (sortJS l) l := by
  induction l with
  | nil => exact List.Perm.refl _
  | cons a as ih => exact (insertJS_perm a (sortJS as)).trans (ih.cons a)

/-- Inserting into a sorted list keeps it sorted. -/
theorem insertJS_sorted (a : String) {l : List String}
    (h : l.Pairwise (fun x y => jsLe x y = true)) :
    (insertJS a l).Pairwise (fun x y => jsLe x y = true) := by
  induction l with
  | nil => simp [insertJS]
  | cons b bs ih =>
    rcases List.pairwise_cons.mp h with ⟨hb, hbs⟩
    simp only [insertJS]
    split
    · next hab =>
      refine List.pairwise_cons.mpr ⟨?_, h⟩
      intro x hx
      rcases List.mem_cons.mp hx with rfl | hx
      · exact hab
      · exact jsLe_trans hab (hb x hx)
    · next hab =>
      have hba : jsLe b a = true := by
        rcases jsLe_total a b with h' | h'
        · exact absurd h' hab
        · exact h'
      refine List.pairwise_cons.mpr ⟨?_, ih hbs⟩
      intro x hx
      rcases List.mem_cons.mp ((insertJS_perm a bs).mem_iff.mp hx) with rfl | hx
      · exact hba
      · exact hb x hx

/-- The JS sort result is sorted under the code-unit comparison. -/
theorem sortJS_sorted (l : List String) :
    (sortJS l).Pairwise (fun x y => jsLe x y = true) := by
  induction l with
  | nil => simp [sortJS]
  | cons a as ih => exact insertJS_sorted a ih

/-- Splitting a plus-free piece yields the accumulator and the piece. -/
theorem splitPlusAux_noplus {cs : List Char} (h : ('+' : Char) ∉ cs) :
    ∀ acc, splitPlusAux cs acc = [⟨acc.reverse ++ cs⟩] := by
  induction cs with
  | nil => intro acc; simp [splitPlusAux]
  | cons c cs ih =>
    intro acc
    have hc : ¬(c = '+') := fun hc => h (hc ▸ List.mem_cons_self c cs)
    have hcs : ('+' : Char) ∉ cs := fun hm => h (List.mem_cons_of_mem c hm)
    simp only [splitPlusAux, if_neg hc]
    rw [ih hcs]
    simp

/-- Splitting past a plus-free piece followed by a separator peels off
that piece. -/
theorem splitPlusAux_piece {cs : List Char} (h : ('+' : Char) ∉ cs) :
    ∀ acc rest, splitPlusAux (cs ++ '+' :: rest) acc =
      ⟨acc.reverse ++ cs⟩ :: splitPlusAux rest [] := by
  induction cs with
  | nil => intro acc rest; simp [splitPlusAux]
  | cons c cs ih =>
    intro acc rest
    have hc : ¬(c = '+') := fun hc => h (hc ▸ List.mem_cons_self c cs)
    have hcs : ('+' : Char) ∉ cs := fun hm => h (List.mem_cons_of_mem c hm)
    simp only [List.cons_append, splitPlusAux, if_neg hc, List.append_eq]
    rw [ih hcs]
    simp

/-- Splitting on plus is a left inverse of joining with plus for a
nonempty list of plus-free pieces. -/
theorem splitPlus_joinPlus : ∀ {parts : List String},
    (∀ p ∈ parts, ('+' : Char) ∉ p.data) → parts ≠ [] →
    splitPlus (joinPlus parts) = parts := by
  intro parts
  induction parts with
  | nil => intro _ h; exact absurd rfl h
  | cons p ps ih =>
    intro h1 _
    cases ps with
    | nil =>
      have := splitPlusAux_noplus (h1 p (List.mem_cons_self p [])) []
      simpa [splitPlus, joinPlus, joinPlusL] using this
    | cons q qs =>
      have hp : ('+' : Char) ∉ p.data := h1 p (List.mem_cons_self p _)
      have hps : ∀ r ∈ q :: qs, ('+' : Char) ∉ r.data :=
        fun r hr => h1 r (List.mem_cons_of_mem p hr)
      show splitPlusAux (p.data ++ '+' :: joinPlusL (q :: qs)) [] = p :: q :: qs
      rw [splitPlusAux_piece hp]
      have := ih hps (by simp)
      simpa [splitPlus, joinPlus] using this

/-- Every modifier value is plus-free. -/
theorem modifier_values_plusfree :
    ∀ m ∈ MODIFIER_VALUES, ('+' : Char) ∉ m.data := by decide

/-- Every allowed key is plus-free. -/
theorem shortcut_keys_plusfree :
    ∀ k ∈ SHORTCUT_KEYS, ('+' : Char) ∉ k.data := by decide

/-! ## C3 -/

/-- C3: formatShortcutString and parseShortcutString are inverse up to
modifier-order normalization.  For every chord accepted by
validateShortcut, parsing the formatted string succeeds and yields a
chord with the same key and the same modifier set; the parsed modifier
list is the lexicographically sorted rearrangement of the original
modifiers, and the formatted string splits back into exactly the
sorted modifiers followed by the key, witnessing the canonical
sorted-modifiers-joined-with-plus form. -/
theorem c3_parse_format_inverse (c : ShortcutKey) (hv : validateShortcut c = true) :
    splitPlus (formatShortcutString c) = sortJS c.modifiers ++ [c.key] ∧
    ∃ d, parseShortcutString (formatShortcutString c) = some d ∧
      d.key = c.key ∧ d.enabled = true ∧
      (∀ m, m ∈ d.modifiers ↔ m ∈ c.modifiers) ∧
      List.Perm d.modifiers c.modifiers ∧
      d.modifiers.Pairwise (fun x y => jsLe x y = true) := by
  have hv1 : c.modifiers ≠ [] := by
    intro h
    rw [validateShortcut, h] at hv
    simp at hv
  have hv2 : ∀ m ∈ c.modifiers, m ∈ MODIFIER_VALUES := by
    intro m hm
    have := (Bool.and_eq_true _ _).mp ((Bool.and_eq_true _ _).mp hv).1
    have hall := this.2
    rw [List.all_eq_true] at hall
    have := hall m hm
    simpa using this
  have hv3 : c.key ∈ SHORTCUT_KEYS := by
    have := ((Bool.and_eq_true _ _).mp hv).2
    simpa using this
  have hplusfree : ∀ p ∈ sortJS c.modifiers ++ [c.key], ('+' : Char) ∉ p.data := by
    intro p hp
    rcases List.mem_append.mp hp with hp | hp
    · exact modifier_values_plusfree p (hv2 p ((sortJS_perm c.modifiers).mem_iff.mp hp))
    · rcases List.mem_singleton.mp hp with rfl
      exact shortcut_keys_plusfree _ hv3
  have hsplit : splitPlus (formatShortcutString c) = sortJS c.modifiers ++ [c.key] :=
    splitPlus_joinPlus hplusfree (by simp)
  refine ⟨hsplit, ?_⟩
  have hlen : (sortJS c.modifiers).length = c.modifiers.length :=
    (sortJS_perm c.modifiers).length_eq
  have hlen2 : ¬((sortJS c.modifiers ++ [c.key]).length < 2) := by
    have : 1 ≤ c.modifiers.length := by
      cases h : c.modifiers with
      | nil => exact absurd h hv1
      | cons _ _ => simp [h]
    simp only [List.length_append, List.length_cons, List.length_nil, hlen]
    omega
  refine ⟨{ key := c.key, modifiers := sortJS c.modifiers, enabled := true }, ?_, rfl, rfl,
    ?_, sortJS_perm c.modifiers, sortJS_sorted c.modifiers⟩
  · rw [parseShortcutString]
    simp only [hsplit, if_neg hlen2]
    rw [List.getLastD_concat, List.dropLast_concat]
  · intro m
    exact (sortJS_perm c.modifiers).mem_iff

/-- Witness for C3: the inverse property applied to the chord with
modifiers shift then ctrl and key 1. -/
theorem c3_parse_format_inverse_witness :
    splitPlus (formatShortcutString
        { key := "1", modifiers := ["shift", "ctrl"], enabled := true }) =
      sortJS ["shift", "ctrl"] ++ ["1"] ∧
    ∃ d, parseShortcutString (formatShortcutString
        { key := "1", modifiers := ["shift", "ctrl"], enabled := true }) = some d ∧
      d.key = "1" ∧ d.enabled = true ∧
      (∀ m, m ∈ d.modifiers ↔ m ∈ ["shift", "ctrl"]) ∧
      List.Perm d.modifiers ["shift", "ctrl"] ∧
      d.modifiers.Pairwise (fun x y => jsLe x y = true) :=
  c3_parse_format_inverse { key := "1", modifiers := ["shift", "ctrl"], enabled := true }
    (by decide)

/-! ## C4: replacement lemmas -/

/-- With no occurrence of the pattern, replace returns the list
unchanged. -/
theorem replaceFirstL_no_occ {pat : List Char} (rep : List Char) :
    ∀ {l : List Char}, hasSubstrL pat l = false → replaceFirstL pat rep l = l := by
  intro l
  induction l with
  | nil =>
    intro h
    rw [hasSubstrL] at h
    rw [replaceFirstL, if_neg (by simp [h])]
  | cons c cs ih =>
    intro h
    rw [hasSubstrL, Bool.or_eq_false_iff] at h
    rw [replaceFirstL, if_neg (by simp [h.1]), ih h.2]

/-- With an occurrence, replace rewrites exactly the first occurrence:
the list decomposes around a first occurrence of the pattern (no
occurrence begins earlier) and the result carries the replacement in
its place. -/
theorem replaceFirstL_spec {pat : List Char} (hpat : pat ≠ []) (rep : List Char) :
    ∀ {l : List Char}, hasSubstrL pat l = true →
    ∃ pre post, l = pre ++ pat ++ post ∧
      replaceFirstL pat rep l = pre ++ rep ++ post ∧
      ∀ j < pre.length, pat.isPrefixOf (l.drop j) = false := by
  intro l
  induction l with
  | nil =>
    intro h
    rw [hasSubstrL, List.isEmpty_iff] at h
    exact absurd h hpat
  | cons c cs ih =>
    intro h
    cases hpre : pat.isPrefixOf (c :: cs) with
    | true =>
      obtain ⟨t, ht⟩ := (List.isPrefixOf_iff_prefix.mp hpre)
      refine ⟨[], (c :: cs).drop pat.length, ?_, ?_, by intro j hj; simp at hj⟩
      · rw [List.nil_append, ← ht, List.drop_left]
      · rw [replaceFirstL, if_pos hpre, List.nil_append]
    | false =>
      rw [hasSubstrL, hpre, Bool.false_or] at h
      obtain ⟨pre, post, heq, hrep, hfirst⟩ := ih h
      refine ⟨c :: pre, post, by simp [heq], ?_, ?_⟩
      · rw [replaceFirstL, if_neg (by simp [hpre]), hrep]
        simp
      · intro j hj
        cases j with
        | zero => simpa using hpre
        | succ j' =>
          have : (c :: cs).drop (j' + 1) = cs.drop j' := rfl
          rw [this]
          exact hfirst j' (by simpa using hj)

/-! ## C4 -/

/-- C4 (amended): generateSiteUrl replaces exactly the first
occurrence of the REPO_PATH placeholder with the repository path,
literally and with no escaping, and leaves a template without the
placeholder unchanged; for each of the five built-in default sites the
result of substituting owner slash repo contains that path and retains
no placeholder.  (The original claim quantified the no-placeholder-
remains clause over all sites; a template containing the token twice
refutes that, see the counterexample.) -/
theorem c4_generateSiteUrl_first_occurrence :
    (∀ (site : ServiceSite) (repoPath : String),
      containsSubstr site.urlTemplate "{REPO_PATH}" = true →
      ∃ pre post,
        site.urlTemplate.data = pre ++ "{REPO_PATH}".data ++ post ∧
        (generateSiteUrl site repoPath).data = pre ++ repoPath.data ++ post ∧
        ∀ j < pre.length,
          ("{REPO_PATH}".data.isPrefixOf (site.urlTemplate.data.drop j)) = false)
    ∧ (∀ (site : ServiceSite) (repoPath : String),
        containsSubstr site.urlTemplate "{REPO_PATH}" = false →
        generateSiteUrl site repoPath = site.urlTemplate)
    ∧ (∀ site ∈ DEFAULT_SITES,
        containsSubstr (generateSiteUrl site "owner/repo") "owner/repo" = true ∧
        containsSubstr (generateSiteUrl site "owner/repo") "{REPO_PATH}" = false) := by
  refine ⟨?_, ?_, by decide⟩
  · intro site repoPath h
    obtain ⟨pre, post, heq, hrep, hfirst⟩ :=
      @replaceFirstL_spec ("{REPO_PATH}".data) (by decide) repoPath.data
        site.urlTemplate.data h
    exact ⟨pre, post, heq, hrep, hfirst⟩
  · intro site repoPath h
    show String.mk (replaceFirstL "{REPO_PATH}".data repoPath.data site.urlTemplate.data)
      = site.urlTemplate
    rw [replaceFirstL_no_occ repoPath.data h]

/-- Witness for C4: the decomposition at the github1s template. -/
theorem c4_generateSiteUrl_first_occurrence_witness :
    ∃ pre post,
      (DEFAULT_SITES.get ⟨0, by decide⟩).urlTemplate.data =
        pre ++ "{REPO_PATH}".data ++ post ∧
      (generateSiteUrl (DEFAULT_SITES.get ⟨0, by decide⟩) "owner/repo").data =
        pre ++ "owner/repo".data ++ post ∧
      ∀ j < pre.length,
        ("{REPO_PATH}".data.isPrefixOf
          ((DEFAULT_SITES.get ⟨0, by decide⟩).urlTemplate.data.drop j)) = false :=
  c4_generateSiteUrl_first_occurrence.1 (DEFAULT_SITES.get ⟨0, by decide⟩) "owner/repo"
    (by decide)

/-- Counterexample for C4 as stated: a site whose template carries the
placeholder twice keeps a placeholder occurrence after substitution,
so it is not true of every site that no placeholder token remains. -/
theorem c4_generateSiteUrl_counterexample :
    containsSubstr
      (generateSiteUrl
        { dummySite with urlTemplate := "https://e.com/{REPO_PATH}/{REPO_PATH}" }
        "owner/repo")
      "{REPO_PATH}" = true := by decide

/-! ## C5: a first-hit characterization of find? -/

/-- A successful find? returns the element at the first index whose
predicate holds. -/
theorem find?_first {p : α → Bool} : ∀ {l : List α} {a : α}, l.find? p = some a →
    ∃ i, ∃ hi : i < l.length, l.get ⟨i, hi⟩ = a ∧ p a = true ∧
      ∀ j, ∀ hj : j < i, p (l.get ⟨j, Nat.lt_trans hj hi⟩) = false := by
  intro l
  induction l with
  | nil => intro a h; simp at h
  | cons c cs ih =>
    intro a h
    cases hc : p c with
    | true =>
      rw [List.find?_cons_eq_some] at h
      rcases h with ⟨_, rfl⟩ | ⟨hfalse, _⟩
      · exact ⟨0, by simp, rfl, hc, fun j hj => absurd hj (by omega)⟩
      · rw [hc] at hfalse; simp at hfalse
    | false =>
      rw [List.find?_cons_eq_some] at h
      rcases h with ⟨htrue, rfl⟩ | ⟨_, hrest⟩
      · rw [hc] at htrue; simp at htrue
      · obtain ⟨i, hi, hget, hpa, hbefore⟩ := ih hrest
        refine ⟨i + 1, by simpa using hi, hget, hpa, ?_⟩
        intro j hj
        cases j with
        | zero => exact hc
        | succ j' => exact hbefore j' (by omega)

/-! ## C5 -/

/-- C5 (amended): getSuggestedShortcut scans the digit keys one
through nine and then zero, paired with ctrl and shift, and returns
the first combination whose canonical string is not among the enabled
shortcuts of the other sites (whatever the enabled flag of those sites
themselves), or none when all ten are taken; on a fresh default
configuration, suggesting for a new site yields key six with ctrl and
shift.  (The original claim read the scan as ascending from zero and
the occupancy test as ranging over enabled sites only; the code scans
zero last and ignores the enabled flag of the site owning the
shortcut, see the counterexample.) -/
theorem c5_getSuggestedShortcut_scan :
    (∀ (cfg : ExtensionConfig) (siteId : String) (c : ShortcutKey),
      getSuggestedShortcut cfg siteId = some c →
      c.modifiers = ["ctrl", "shift"] ∧ c.enabled = true ∧
      ∃ i, ∃ hi : i < scanKeys.length,
        c.key = scanKeys.get ⟨i, hi⟩ ∧
        (usedShortcutStrings cfg siteId).contains (formatShortcutString c) = false ∧
        ∀ j, ∀ hj : j < i,
          (usedShortcutStrings cfg siteId).contains
            (formatShortcutString (ctrlShift (scanKeys.get ⟨j, Nat.lt_trans hj hi⟩))) = true)
    ∧ (∀ (cfg : ExtensionConfig) (siteId : String),
        getSuggestedShortcut cfg siteId = none →
        ∀ key ∈ scanKeys,
          (usedShortcutStrings cfg siteId).contains
            (formatShortcutString (ctrlShift key)) = true)
    ∧ getSuggestedShortcut DEFAULT_CONFIG "new-site"
        = some { key := "6", modifiers := ["ctrl", "shift"], enabled := true } := by
  have hused : ∀ cfg siteId, getSuggestedShortcut cfg siteId =
      (scanKeys.find? (fun key =>
        !((usedShortcutStrings cfg siteId).contains
          (formatShortcutString (ctrlShift key))))).map ctrlShift := by
    intro cfg siteId
    simp only [getSuggestedShortcut, getSites_eq, usedShortcutStrings, ctrlShift]
    rfl
  refine ⟨?_, ?_, by decide⟩
  · intro cfg siteId c h
    rw [hused] at h
    obtain ⟨key, hfind, rfl⟩ := Option.map_eq_some'.mp h
    refine ⟨rfl, rfl, ?_⟩
    obtain ⟨i, hi, hget, hp, hbefore⟩ := find?_first hfind
    refine ⟨i, hi, by rw [hget]; rfl, ?_, ?_⟩
    · simpa using hp
    · intro j hj
      have := hbefore j hj
      simpa using this
  · intro cfg siteId h key hkey
    rw [hused] at h
    rw [Option.map_eq_none'] at h
    rw [List.find?_eq_none] at h
    have := h key hkey
    simpa using this

/-- Witness for C5: the scan characterization applied to the default
configuration and a fresh site id. -/
theorem c5_getSuggestedShortcut_scan_witness :
    (ctrlShift "6").modifiers = ["ctrl", "shift"] ∧
    (ctrlShift "6").enabled = true ∧
    ∃ i, ∃ hi : i < scanKeys.length,
      (ctrlShift "6").key = scanKeys.get ⟨i, hi⟩ ∧
      (usedShortcutStrings DEFAULT_CONFIG "new-site").contains
        (formatShortcutString (ctrlShift "6")) = false ∧
      ∀ j, ∀ hj : j < i,
        (usedShortcutStrings DEFAULT_CONFIG "new-site").contains
          (formatShortcutString (ctrlShift (scanKeys.get ⟨j, Nat.lt_trans hj hi⟩))) = true :=
  c5_getSuggestedShortcut_scan.1 DEFAULT_CONFIG "new-site" (ctrlShift "6") (by decide)

/-- Counterexample for C5 as stated: the claim describes an ascending
scan from key zero over enabled sites; a scanner written to those
words (specGetSuggestedShortcut) suggests key zero on the fresh
default configuration, while the code suggests key six. -/
theorem c5_getSuggestedShortcut_counterexample :
    getSuggestedShortcut DEFAULT_CONFIG "new-site"
      = some { key := "6", modifiers := ["ctrl", "shift"], enabled := true } ∧
    specGetSuggestedShortcut DEFAULT_CONFIG "new-site"
      = some { key := "0", modifiers := ["ctrl", "shift"], enabled := true } ∧
    getSuggestedShortcut DEFAULT_CONFIG "new-site" ≠
      specGetSuggestedShortcut DEFAULT_CONFIG "new-site" := by
  refine ⟨by decide, by decide, by decide⟩

/-! ## C7: map lookup lemma -/

/-- When some site carries the id, the JS Map lookup returns a site of
the list carrying exactly that id. -/
theorem siteMapGet_mem_id {sites : List ServiceSite} {id : String}
    (h : ∃ s ∈ sites, s.id = id) :
    siteMapGet sites id ∈ sites ∧ (siteMapGet sites id).id = id := by
  obtain ⟨s, hs, hsid⟩ := h
  have hmem : s ∈ sites.filter (fun t => t.id == id) :=
    List.mem_filter.mpr ⟨hs, by simp [hsid]⟩
  have hne : sites.filter (fun t => t.id == id) ≠ [] := List.ne_nil_of_mem hmem
  have hlast : siteMapGet sites id = (sites.filter (fun t => t.id == id)).getLast hne := by
    rw [siteMapGet, List.getLastD_eq_getLast?, List.getLast?_eq_getLast _ hne]
    rfl
  have hmem2 : siteMapGet sites id ∈ sites.filter (fun t => t.id == id) := by
    rw [hlast]
    exact List.getLast_mem hne
  have hsp := List.mem_filter.mp hmem2
  exact ⟨hsp.1, by simpa using hsp.2⟩

/-! ## C7 -/

/-- C7: reorderSites rejects (with the missing ids, leaving the
document unchanged) when any listed id is unknown; otherwise it
succeeds, persists and returns a list consisting of the listed ids in
the given sequence followed by the unlisted sites in their original
relative order, with order values running one to N across the whole
result; over sites a, b, c, reordering by b then a yields order b one,
a two, c three. -/
theorem c7_reorderSites_spec :
    (∀ (cfg : ExtensionConfig) (ids : List String),
      (∃ id ∈ ids, ∀ s ∈ cfg.sites, s.id ≠ id) →
      (reorderSites cfg ids).1 = cfg ∧
      ∃ missing, missing ≠ [] ∧
        (reorderSites cfg ids).2 = .error (.missingSites missing))
    ∧ (∀ (cfg : ExtensionConfig) (ids : List String),
        (∀ id ∈ ids, ∃ s ∈ cfg.sites, s.id = id) →
        ∃ result, (reorderSites cfg ids).2 = .ok result ∧
          (reorderSites cfg ids).1 =
            { sites := result, settings := cfg.settings, version := DEFAULT_VERSION } ∧
          result.length =
            ids.length + (cfg.sites.filter (fun s => !(ids.contains s.id))).length ∧
          (result.take ids.length).map (fun s => s.id) = ids ∧
          (result.drop ids.length).map eraseOrder =
            (cfg.sites.filter (fun s => !(ids.contains s.id))).map eraseOrder ∧
          ∀ i, ∀ hi : i < result.length, (result.get ⟨i, hi⟩).order = (i : Int) + 1)
    ∧ (reorderSites
        { sites := [{ dummySite with id := "a", order := 1 },
                    { dummySite with id := "b", order := 2 },
                    { dummySite with id := "c", order := 3 }],
          settings := DEFAULT_SETTINGS, version := DEFAULT_VERSION }
        ["b", "a"]).2 =
      .ok [{ dummySite with id := "b", order := 1 },
           { dummySite with id := "a", order := 2 },
           { dummySite with id := "c", order := 3 }] := by
  refine ⟨?_, ?_, by decide⟩
  · intro cfg ids h
    obtain ⟨id0, hid0, hmiss⟩ := h
    have hmem : id0 ∈ ids.filter (fun id => !(cfg.sites.any (fun s => s.id == id))) := by
      refine List.mem_filter.mpr ⟨hid0, ?_⟩
      simp only [Bool.not_eq_true']
      rw [List.any_eq_false]
      intro s hs
      simp [hmiss s hs]
    have hne : ids.filter (fun id => !(cfg.sites.any (fun s => s.id == id))) ≠ [] :=
      List.ne_nil_of_mem hmem
    have hcond : (ids.filter (fun id => !(cfg.sites.any (fun s => s.id == id)))).isEmpty
        = false := by simp [hne]
    simp only [reorderSites, getSites_eq, hcond, Bool.not_false, if_true]
    exact ⟨trivial, _, hne, rfl⟩
  · intro cfg ids hall
    have hnil : ids.filter (fun id => !(cfg.sites.any (fun s => s.id == id))) = [] := by
      rw [List.filter_eq_nil_iff]
      intro id hid
      obtain ⟨s, hs, hsid⟩ := hall id hid
      simp only [Bool.not_eq_true']
      intro hfalse
      rw [List.any_eq_false] at hfalse
      exact hfalse s hs (by simp [hsid])
    simp only [reorderSites, getSites_eq, hnil]
    refine ⟨_, rfl, saveSitesTo_eq cfg _, ?_, ?_, ?_, ?_⟩
    · simp
    · rw [List.take_left' (by simp)]
      rw [List.map_map]
      have hcg : ∀ p ∈ ids.enum,
          ((fun s => s.id) ∘ fun p : Nat × String =>
            ({ siteMapGet cfg.sites p.2 with order := (p.1 : Int) + 1 } : ServiceSite)) p
          = Prod.snd p := by
        intro p hp
        have hsnd : p.2 ∈ ids := by
          have h2 : p.2 ∈ ids.enum.map Prod.snd := List.mem_map_of_mem Prod.snd hp
          rw [List.enum_eq_enumFrom, List.enumFrom_map_snd] at h2
          exact h2
        exact (siteMapGet_mem_id (hall p.2 hsnd)).2
      rw [List.map_congr_left hcg]
      rw [List.enum_eq_enumFrom, List.enumFrom_map_snd]
    · rw [List.drop_left' (by simp)]
      rw [List.map_map]
      conv_rhs =>
        rw [← List.enumFrom_map_snd 0 (cfg.sites.filter (fun s => !(ids.contains s.id))),
          ← List.enum_eq_enumFrom, List.map_map]
      apply List.map_congr_left
      intro p _
      rfl
    · intro i hi
      have hi2 : i < ids.length +
          (cfg.sites.filter (fun s => !(ids.contains s.id))).length := by
        simpa [List.enum_eq_enumFrom] using hi
      rw [List.get_eq_getElem, List.getElem_append i (by simpa using hi)]
      split
      · next hin =>
        rw [List.getElem_map]
        simp only [List.enum_eq_enumFrom, List.getElem_enumFrom]
        simp
      · next hin =>
        rw [List.getElem_map]
        simp only [List.enum_eq_enumFrom, List.getElem_enumFrom]
        simp only [List.length_map, List.enum_eq_enumFrom, List.enumFrom_length] at hin ⊢
        omega

/-- Witness for C7: the success characterization applied to the
default configuration with the first two built-in ids swapped. -/
theorem c7_reorderSites_spec_witness :
    ∃ result, (reorderSites DEFAULT_CONFIG ["github_dev", "github1s"]).2 = .ok result ∧
      (reorderSites DEFAULT_CONFIG ["github_dev", "github1s"]).1 =
        { sites := result, settings := DEFAULT_CONFIG.settings,
          version := DEFAULT_VERSION } ∧
      result.length = (["github_dev", "github1s"] : List String).length +
        (DEFAULT_CONFIG.sites.filter
          (fun s => !((["github_dev", "github1s"] : List String).contains s.id))).length ∧
      (result.take (["github_dev", "github1s"] : List String).length).map (fun s => s.id)
        = ["github_dev", "github1s"] ∧
      (result.drop (["github_dev", "github1s"] : List String).length).map eraseOrder =
        (DEFAULT_CONFIG.sites.filter
          (fun s => !((["github_dev", "github1s"] : List String).contains s.id))).map
          eraseOrder ∧
      ∀ i, ∀ hi : i < result.length, (result.get ⟨i, hi⟩).order = (i : Int) + 1 :=
  c7_reorderSites_spec.2.1 DEFAULT_CONFIG ["github_dev", "github1s"] (by decide)

/-! ## C8 -/

/-- C8: importing the snapshot produced by exporting a stored
configuration, with no intervening mutation, stores and returns
exactly the loaded configuration: the export date is dropped, the
imported sites wholly replace the default sites and the imported
settings override the default settings, reproducing the document
field for field; on a document already carrying the current version
the loaded configuration is the stored one itself. -/
theorem c8_export_import_roundtrip :
    (∀ (cfg : ExtensionConfig) (t : String),
      importConfig cfg (exportConfig cfg t) =
        (getConfigFrom cfg, .ok (getConfigFrom cfg))) ∧
    (∀ cfg : ExtensionConfig, cfg.version = DEFAULT_VERSION → getConfigFrom cfg = cfg) := by
  constructor
  · intro cfg t
    have hv := migrateConfig_version cfg
    have hmerged : mergeWithDefault (exportConfig cfg t) = getConfigFrom cfg := by
      show ExtensionConfig.mk (getConfigFrom cfg).sites (getConfigFrom cfg).settings
        DEFAULT_VERSION = getConfigFrom cfg
      rw [← hv]
      rfl
    have hstamp : saveConfigStamp (getConfigFrom cfg) = getConfigFrom cfg := by
      show ExtensionConfig.mk (getConfigFrom cfg).sites (getConfigFrom cfg).settings
        DEFAULT_VERSION = getConfigFrom cfg
      rw [← hv]
      rfl
    show (saveConfigStamp (mergeWithDefault (exportConfig cfg t)),
      Except.ok (mergeWithDefault (exportConfig cfg t))) = _
    rw [hmerged, hstamp]
  · intro cfg h
    unfold getConfigFrom migrateConfig
    rw [if_pos (by simp [h])]

/-- Witness for C8: the round trip on the default configuration. -/
theorem c8_export_import_roundtrip_witness :
    importConfig DEFAULT_CONFIG (exportConfig DEFAULT_CONFIG "2026-10-12T00:00:00Z") =
      (getConfigFrom DEFAULT_CONFIG, .ok (getConfigFrom DEFAULT_CONFIG)) ∧
    getConfigFrom DEFAULT_CONFIG = DEFAULT_CONFIG :=
  ⟨c8_export_import_roundtrip.1 DEFAULT_CONFIG "2026-10-12T00:00:00Z",
   c8_export_import_roundtrip.2 DEFAULT_CONFIG rfl⟩

/-! ## C9 -/

/-- C9: the read path is total: an absent stored value and a stored
value failing shape validation both load as a deep copy of the
defaults; a shape-valid document whose version differs from the
current default loads with its version stamped, its settings intact
and each of its sites rebuilt so that every present shortcut carries
an explicit enabled flag (the flag of the stored shortcut when it was
present, true when it was absent); a document already at the current
version loads unchanged. -/
theorem c9_load_total_migration :
    getConfigRaw .absent = RawConfig.ofTyped DEFAULT_CONFIG ∧
    getConfigRaw .malformed = RawConfig.ofTyped DEFAULT_CONFIG ∧
    (∀ c : RawConfig, c.version ≠ DEFAULT_VERSION →
      (getConfigRaw (.stored c)).version = DEFAULT_VERSION ∧
      (getConfigRaw (.stored c)).settings = c.settings ∧
      (getConfigRaw (.stored c)).sites = c.sites.map backfillSite ∧
      (∀ s ∈ (getConfigRaw (.stored c)).sites, ∀ k, s.shortcuts = some k →
        k.enabled.isSome = true)) ∧
    (∀ (s0 : RawSite) (k0 : RawShortcut), s0.shortcuts = some k0 →
      ∃ k1, (backfillSite s0).shortcuts = some k1 ∧ k1.key = k0.key ∧
        k1.modifiers = k0.modifiers ∧ k1.enabled = some (k0.enabled.getD true)) ∧
    (∀ c : RawConfig, c.version = DEFAULT_VERSION → getConfigRaw (.stored c) = c) := by
  refine ⟨rfl, rfl, ?_, ?_, ?_⟩
  · intro c h
    have hcond : (c.version == DEFAULT_VERSION) = false := by simp [h]
    have hmig : getConfigRaw (.stored c) =
        { sites := c.sites.map backfillSite, settings := c.settings,
          version := DEFAULT_VERSION } := by
      simp only [getConfigRaw, migrateRaw, hcond, Bool.false_eq_true, if_false]
    refine ⟨by rw [hmig], by rw [hmig], by rw [hmig], ?_⟩
    intro s hs k hk
    rw [hmig] at hs
    obtain ⟨s0, _, rfl⟩ := List.mem_map.mp hs
    rw [backfillSite] at hk
    cases hsc : s0.shortcuts with
    | none => rw [hsc] at hk; simp at hk
    | some k0 =>
      rw [hsc, Option.map_some'] at hk
      obtain rfl := Option.some_inj.mp hk
      rfl
  · intro s0 k0 h
    refine ⟨RawShortcut.mk k0.key k0.modifiers (some (k0.enabled.getD true)),
      ?_, rfl, rfl, rfl⟩
    rw [backfillSite, h]
    rfl
  · intro c h
    simp only [getConfigRaw, migrateRaw]
    rw [if_pos (by simp [h])]

/-- Witness for C9: the migration conjunct applied to a stored
document with version 0.0.1 whose shortcut lacks its enabled flag. -/
theorem c9_load_total_migration_witness :
    ((getConfigRaw (.stored sampleOldRaw)).version = DEFAULT_VERSION ∧
      (getConfigRaw (.stored sampleOldRaw)).settings = sampleOldRaw.settings ∧
      (getConfigRaw (.stored sampleOldRaw)).sites = sampleOldRaw.sites.map backfillSite ∧
      (∀ s ∈ (getConfigRaw (.stored sampleOldRaw)).sites, ∀ k, s.shortcuts = some k →
        k.enabled.isSome = true)) ∧
    getConfigRaw (.stored (RawConfig.ofTyped DEFAULT_CONFIG)) =
      RawConfig.ofTyped DEFAULT_CONFIG :=
  ⟨c9_load_total_migration.2.2.1 sampleOldRaw (by decide),
   c9_load_total_migration.2.2.2.2 (RawConfig.ofTyped DEFAULT_CONFIG) rfl⟩

/-! ## C10: setFirst frame lemmas -/

/-- Replacing the first match leaves the length unchanged. -/
theorem setFirst_length (p : α → Bool) (y : α) :
    ∀ l : List α, (setFirst p y l).length = l.length := by
  intro l
  induction l with
  | nil => rfl
  | cons x xs ih =>
    rw [setFirst]
    split
    · simp
    · simpa using ih

/-- Replacing the first match leaves every position whose element does
not match untouched. -/
theorem setFirst_getElem?_of_false {p : α → Bool} {y : α} :
    ∀ (l : List α) (j : Nat) (x : α), l[j]? = some x → p x = false →
      (setFirst p y l)[j]? = some x := by
  intro l
  induction l with
  | nil => intro j x hx; simp at hx
  | cons a as ih =>
    intro j x hx hfalse
    cases j with
    | zero =>
      rw [List.getElem?_cons_zero, Option.some_inj] at hx
      subst hx
      rw [setFirst, if_neg (by simp [hfalse]), List.getElem?_cons_zero]
    | succ j' =>
      rw [List.getElem?_cons_succ] at hx
      rw [setFirst]
      split
      · rw [List.getElem?_cons_succ]
        exact hx
      · rw [List.getElem?_cons_succ]
        exact ih j' x hx hfalse

/-! ## C10 -/

/-- C10 (amended): a successful updateSite or toggleSite writes back
the sites list with only the first site matching the id replaced (the
replacement keeping its id and isBuiltIn), the settings unchanged and
the version stamped to the current default (so the stored version
changes when it was not already the default, see the counterexample);
a successful updateSiteShortcut does the same except that, through the
in place Array sort inside the conflict check, every other site
holding an enabled shortcut is persisted with its modifier list
re-sorted (a permutation of the stored one, key and flags intact). -/
theorem c10_single_site_mutation_frame :
    (∀ (cfg : ExtensionConfig) (id : String) (u : UpdateSiteInput)
      (post : ExtensionConfig) (site2 : ServiceSite),
      updateSite cfg id u = (post, .ok site2) →
      post.settings = cfg.settings ∧ post.version = DEFAULT_VERSION ∧
      ∃ s, cfg.sites.find? (fun t => t.id == id) = some s ∧
        site2.id = s.id ∧ site2.isBuiltIn = s.isBuiltIn ∧
        post.sites = setFirst (fun t => t.id == id) site2 cfg.sites)
    ∧ (∀ (cfg : ExtensionConfig) (id : String) (b : Bool),
        toggleSite cfg id b = updateSite cfg id (togglePatch b))
    ∧ (∀ (cfg : ExtensionConfig) (siteId : String) (sc : Option ShortcutKey)
        (post : ExtensionConfig) (site2 : ServiceSite),
        updateSiteShortcut cfg siteId sc = (post, .ok site2) →
        post.settings = cfg.settings ∧ post.version = DEFAULT_VERSION ∧
        ∃ s, cfg.sites.find? (fun t => t.id == siteId) = some s ∧
          site2.id = s.id ∧ site2.isBuiltIn = s.isBuiltIn ∧
          (post.sites = setFirst (fun t => t.id == siteId) site2 cfg.sites ∨
           post.sites = setFirst (fun t => t.id == siteId) site2
             (cfg.sites.map (fun t =>
               if t.id != siteId && shortcutEnabledOf t then
                 { t with shortcuts := t.shortcuts.map sortMods }
               else t))))
    ∧ (∀ k : ShortcutKey, (sortMods k).key = k.key ∧ (sortMods k).enabled = k.enabled ∧
        List.Perm (sortMods k).modifiers k.modifiers)
    ∧ (∀ (p : ServiceSite → Bool) (y : ServiceSite) (l : List ServiceSite)
        (j : Nat) (x : ServiceSite), l[j]? = some x → p x = false →
        (setFirst p y l).length = l.length ∧ (setFirst p y l)[j]? = some x) := by
  refine ⟨?_, fun cfg id b => rfl, ?_,
    fun k => ⟨rfl, rfl, sortJS_perm k.modifiers⟩,
    fun p y l j x hx hfalse =>
      ⟨setFirst_length p y l, setFirst_getElem?_of_false l j x hx hfalse⟩⟩
  · intro cfg id u post site2 h
    simp only [updateSite, getSites_eq] at h
    cases hfind : cfg.sites.find? (fun t => t.id == id) with
    | none => simp only [hfind] at h; simp at h
    | some s =>
      simp only [hfind] at h
      split at h
      · simp at h
      · rw [Prod.mk.injEq, Except.ok.injEq] at h
        obtain ⟨h1, h2⟩ := h
        subst h1
        subst h2
        refine ⟨by rw [saveSitesTo_eq], by rw [saveSitesTo_eq], s, rfl, rfl, rfl, ?_⟩
        rw [saveSitesTo_eq]
  · intro cfg siteId sc post site2 h
    simp only [updateSiteShortcut, getSites_eq] at h
    cases hfind : cfg.sites.find? (fun t => t.id == siteId) with
    | none => simp only [hfind] at h; simp at h
    | some s =>
      cases sc with
      | none =>
        simp only [hfind] at h
        rw [Prod.mk.injEq, Except.ok.injEq] at h
        obtain ⟨h1, h2⟩ := h
        subst h1
        subst h2
        exact ⟨by rw [saveSitesTo_eq], by rw [saveSitesTo_eq], s, rfl, rfl, rfl,
          Or.inl (by rw [saveSitesTo_eq])⟩
      | some k =>
        simp only [hfind] at h
        by_cases hen : k.enabled = true
        · rw [if_pos hen] at h
          by_cases hconf : (checkShortcutConflicts cfg.sites siteId k).isEmpty = true
          · rw [if_pos hconf] at h
            rw [Prod.mk.injEq, Except.ok.injEq] at h
            obtain ⟨h1, h2⟩ := h
            subst h1
            subst h2
            exact ⟨by rw [saveSitesTo_eq], by rw [saveSitesTo_eq], s, rfl, rfl, rfl,
              Or.inr (by rw [saveSitesTo_eq])⟩
          · rw [if_neg hconf] at h
            simp at h
        · rw [if_neg hen] at h
          rw [Prod.mk.injEq, Except.ok.injEq] at h
          obtain ⟨h1, h2⟩ := h
          subst h1
          subst h2
          exact ⟨by rw [saveSitesTo_eq], by rw [saveSitesTo_eq], s, rfl, rfl, rfl,
            Or.inl (by rw [saveSitesTo_eq])⟩

/-- Witness for C10: the frame statement applied to disabling github1s
on the default configuration. -/
theorem c10_single_site_mutation_frame_witness :
    ((updateSite DEFAULT_CONFIG "github1s" (togglePatch false)).1).settings =
      DEFAULT_CONFIG.settings ∧
    ((updateSite DEFAULT_CONFIG "github1s" (togglePatch false)).1).version =
      DEFAULT_VERSION ∧
    ∃ s, DEFAULT_CONFIG.sites.find? (fun t => t.id == "github1s") = some s ∧
      ({ DEFAULT_SITES.get ⟨0, by decide⟩ with enabled := false } : ServiceSite).id = s.id ∧
      ({ DEFAULT_SITES.get ⟨0, by decide⟩ with enabled := false } : ServiceSite).isBuiltIn
        = s.isBuiltIn ∧
      ((updateSite DEFAULT_CONFIG "github1s" (togglePatch false)).1).sites =
        setFirst (fun t => t.id == "github1s")
          { DEFAULT_SITES.get ⟨0, by decide⟩ with enabled := false } DEFAULT_CONFIG.sites :=
  c10_single_site_mutation_frame.1 DEFAULT_CONFIG "github1s" (togglePatch false)
    (updateSite DEFAULT_CONFIG "github1s" (togglePatch false)).1
    { DEFAULT_SITES.get ⟨0, by decide⟩ with enabled := false } (by decide)

/-- Counterexample for C10 as stated: on a stored document whose
version is not the current default, a successful toggleSite persists a
document whose version differs from the stored one — the version is
stamped, not left unchanged. -/
theorem c10_version_stamp_counterexample :
    ((toggleSite oldVersionConfig "github1s" false).2).isOk = true ∧
    (toggleSite oldVersionConfig "github1s" false).1.version ≠ oldVersionConfig.version := by
  refine ⟨by decide, by decide⟩

end AiCodeView
